import Mathlib

/-!
Shallow embedding of `service/explorer/file.go` from Cloudreve (v3 fork),
the upload/download orchestration layer: single-file creation, archived and
anonymous downloads, signed-source redirection, doc-preview session creation,
content preview, and in-place content update with soft-link conflict
resolution.

External collaborators (the filesystem abstraction, the metadata store, the
session cache, the settings store) are modelled as environment records whose
fields hold the outcome of each external call; the handlers are translated as
pure functions from those environments to a response plus an explicit record
of their observable effects (hooks registered, cache deletions issued, HTTP
headers set, streams served and closed, panics from deferred calls).
-/

namespace Cloudreve

/-- Modelled from the spec: the serializer package (not under src/) exposes
positive numeric application error codes, each carried in a response together
with a human-readable message and an optional underlying cause (§6). The code
also uses the literal `404` for not-found errors. Concrete values are only
required to be distinct from each other and from `0`, `-301`, `-302`. -/
def CodePolicyNotAllowed : Int := 1001

/-- Modelled from the spec: group-not-allowed application error code. -/
def CodeGroupNotAllowed : Int := 1002

/-- Modelled from the spec: not-set application error code (used for lookup
and I/O failures whose cause is surfaced verbatim). -/
def CodeNotSet : Int := 1003

/-- Modelled from the spec: upload-failed application error code. -/
def CodeUploadFailed : Int := 1004

/-- Modelled from the spec: I/O-failed application error code. -/
def CodeIOFailed : Int := 1005

/-- Modelled from the spec: parameter-error application code produced by
`serializer.ParamErr`. -/
def CodeParamErr : Int := 1006

/-- Modelled from the spec: not-found application error code
(`serializer.CodeNotFound`), a 404-equivalent. -/
def CodeNotFound : Int := 404

/-- Model of `serializer.Response`: numeric code, optional data payload, message and
optional underlying error cause. -/
structure Response where
  code : Int
  data : Option String
  msg : String
  error : Option String
  deriving Repr, DecidableEq

/-- Model of `serializer.Err(code, msg, err)` — an error response with no data. -/
def errResp (code : Int) (msg : String) (err : Option String) : Response :=
  { code := code, data := none, msg := msg, error := err }

/-- Model of `serializer.ParamErr(msg, err)`. -/
def paramErr (msg : String) (err : Option String) : Response :=
  errResp CodeParamErr msg err

/-- Model of `serializer.Response{Code: 0}` — bare success. -/
def okResp : Response :=
  { code := 0, data := none, msg := "", error := none }

/-- Model of `serializer.Response{Code: 0, Data: d}`. -/
def okData (d : String) : Response :=
  { code := 0, data := some d, msg := "", error := none }

/-- The four hook stages of the upload lifecycle (string keys of `fs.Use`). -/
inductive Stage where
  | beforeUpload
  | afterUpload
  | afterUploadCanceled
  | afterValidateFailed
  deriving Repr, DecidableEq

/-- The hook callbacks of the `filesystem` package that this file registers. -/
inductive Hook where
  | validateFile
  | genericAfterUpload
  | genericAfterUpdate
  | resetPolicy
  | changeCapacity
  | cleanFileContent
  | clearFileSize
  | giveBackCapacity
  | updateSourceName
  deriving Repr, DecidableEq

/-- Model of `model.File`: the fields of the persisted file record that this layer
reads or writes (identity, display name, physical storage key). -/
structure FileRec where
  id : Nat
  name : String
  sourceName : String
  deriving Repr, DecidableEq

/-- Model of `local.FileStream`: the upload request handed to `fs.Upload`. -/
structure FileStream where
  size : Nat
  content : String
  virtualPath : String
  name : String
  mimeType : String
  deriving Repr, DecidableEq

/-! ### Go standard-library functions used by the handlers -/

/-- Model of `strconv.ParseUint(s, 10, 64)` as an `Option`: succeeds exactly on a
nonempty all-digit string whose value fits in 64 bits. -/
def parseUint64 (s : String) : Option Nat :=
  if s.isEmpty then none
  else if s.data.all (fun ch => ch.isDigit) then
    let v := s.data.foldl (fun acc ch => acc * 10 + (ch.toNat - 48)) 0
    if v < 2 ^ 64 then some v else none
  else none

/-- UTF-8 encoding of a single code point (what `[]byte(s)` does per rune). -/
def utf8EncodeChar (n : Nat) : List Nat :=
  if n < 0x80 then [n]
  else if n < 0x800 then [0xC0 + n / 64, 0x80 + n % 64]
  else if n < 0x10000 then
    [0xE0 + n / 4096, 0x80 + n / 64 % 64, 0x80 + n % 64]
  else
    [0xF0 + n / 262144, 0x80 + n / 4096 % 64, 0x80 + n / 64 % 64, 0x80 + n % 64]

/-- The byte sequence `[]byte(s)` of a Go string. -/
def utf8Bytes (s : String) : List Nat :=
  (s.data.map (fun c => utf8EncodeChar c.toNat)).flatten

/-- Bytes left unescaped by `url.QueryEscape` (Go `shouldEscape` with mode
`encodeQueryComponent`): ASCII alphanumerics and `-`, `.`, `_`, `~`. -/
def isUnreservedByte (b : Nat) : Bool :=
  (48 ≤ b && b ≤ 57) || (65 ≤ b && b ≤ 90) || (97 ≤ b && b ≤ 122) ||
    b == 45 || b == 46 || b == 95 || b == 126

/-- Upper-case hexadecimal digit, as Go's `"0123456789ABCDEF"[n]`. -/
def hexDigit (n : Nat) : Char :=
  "0123456789ABCDEF".data.getD n 'X'

/-- Model of `url.QueryEscape` applied to a byte list: unreserved bytes pass through,
space becomes `+`, everything else becomes `%XX`. -/
def queryEscapeBytes : List Nat → List Char
  | [] => []
  | b :: bs =>
    if isUnreservedByte b then Char.ofNat b :: queryEscapeBytes bs
    else if b == 32 then '+' :: queryEscapeBytes bs
    else '%' :: hexDigit (b / 16) :: hexDigit (b % 16) :: queryEscapeBytes bs

/-- Model of `url.QueryEscape` on a Go string (operates on its UTF-8 bytes). -/
def queryEscape (s : String) : String :=
  String.mk (queryEscapeBytes (utf8Bytes s))

/-- Bytes left unescaped by `url.PathEscape` (Go `shouldEscape` with mode
`encodePathSegment`): unreserved bytes plus the sub-delims other than
`/ ; , ?`. -/
def isPathSegmentByte (b : Nat) : Bool :=
  isUnreservedByte b || b == 36 || b == 38 || b == 43 || b == 58 ||
    b == 61 || b == 64 || b == 33 || b == 39 || b == 40 || b == 41 || b == 42

/-- Model of `url.PathEscape` applied to a byte list (no `+`-for-space here). -/
def pathEscapeBytes : List Nat → List Char
  | [] => []
  | b :: bs =>
    if isPathSegmentByte b then Char.ofNat b :: pathEscapeBytes bs
    else '%' :: hexDigit (b / 16) :: hexDigit (b % 16) :: pathEscapeBytes bs

/-- Model of `url.PathEscape` on a Go string. -/
def pathEscape (s : String) : String :=
  String.mk (pathEscapeBytes (utf8Bytes s))

/-- The base64 standard alphabet (`base64.StdEncoding`). -/
def b64Char (n : Nat) : Char :=
  "ABCDEFGHIJKLMNOPQRSTUVWXYZabcdefghijklmnopqrstuvwxyz0123456789+/".data.getD n 'A'

/-- Model of `base64.StdEncoding.EncodeToString` over a byte list, with `=` padding. -/
def base64EncodeBytes : List Nat → List Char
  | [] => []
  | [a] => [b64Char (a / 4), b64Char (a % 4 * 16), '=', '=']
  | [a, b] => [b64Char (a / 4), b64Char (a % 4 * 16 + b / 16), b64Char (b % 16 * 4), '=']
  | a :: b :: c :: rest =>
    b64Char (a / 4) :: b64Char (a % 4 * 16 + b / 16) ::
      b64Char (b % 16 * 4 + c / 64) :: b64Char (c % 64) :: base64EncodeBytes rest

/-- Model of `base64.StdEncoding.EncodeToString([]byte(s))`. -/
def base64String (s : String) : String :=
  String.mk (base64EncodeBytes (utf8Bytes s))

/-! ### Go `path` package: `Clean`, `Dir`, `Base` -/

/-- Segment-stack core of `path.Clean`'s documented algorithm: process the
slash-separated elements, dropping empty and `.` elements, resolving `..`
against the preceding element, and keeping leading `..` only in relative
paths. -/
def cleanSegs (rooted : Bool) : List String → List String → List String
  | stack, [] => stack.reverse
  | stack, seg :: rest =>
    if seg = "" ∨ seg = "." then cleanSegs rooted stack rest
    else if seg = ".." then
      match stack with
      | [] => if rooted then cleanSegs rooted [] rest
              else cleanSegs rooted [".."] rest
      | top :: stack' =>
        if top = ".." then cleanSegs rooted (".." :: top :: stack') rest
        else cleanSegs rooted stack' rest
    else cleanSegs rooted (seg :: stack) rest

/-- Split a character list at every `/` (what `strings.Split(p, "/")` does). -/
def splitSlashAux (acc : List Char) : List Char → List String
  | [] => [String.mk acc.reverse]
  | c :: cs =>
    if c = '/' then String.mk acc.reverse :: splitSlashAux [] cs
    else splitSlashAux (c :: acc) cs

/-- Join path elements with `/` separators. -/
def joinSlash : List String → String
  | [] => ""
  | [s] => s
  | s :: rest => s ++ "/" ++ joinSlash rest

/-- Model of `path.Clean`: the shortest lexically equivalent path. -/
def pathClean (p : String) : String :=
  if p = "" then "."
  else
    let rooted := p.data.head? = some '/'
    let segs := cleanSegs rooted [] (splitSlashAux [] p.data)
    let body := joinSlash segs
    if rooted then "/" ++ body
    else if body = "" then "." else body

/-- Model of `path.Split`: splits after the final slash; the directory half keeps its
trailing slash. -/
def pathSplit (p : String) : String × String :=
  let cs := p.data
  let i := cs.length - (cs.reverse.takeWhile (fun c => c ≠ '/')).length
  (String.mk (cs.take i), String.mk (cs.drop i))

/-- Model of `path.Dir`: everything but the last element, cleaned. -/
def pathDir (p : String) : String :=
  pathClean (pathSplit p).1

/-- Model of `path.Base`: the last element of the path, after dropping trailing
slashes; `"."` for the empty path, `"/"` for all-slash paths. -/
def pathBase (p : String) : String :=
  if p = "" then "."
  else
    let cs := (p.data.reverse.dropWhile (fun c => c = '/')).reverse
    let last := cs.reverse.takeWhile (fun c => c ≠ '/')
    if last = [] then "/" else String.mk last.reverse

/-! ### Spec-modelled externals (repository code not under src/) -/

/-- Replace every occurrence of `pat` in the character list, left to right,
with `repl`. `fuel` bounds the number of steps; one step always consumes at
least one character, so `cs.length` fuel is always enough. -/
def replaceCharsAux (pat repl : List Char) : Nat → List Char → List Char
  | 0, cs => cs
  | _ + 1, [] => []
  | fuel + 1, c :: cs =>
    if pat ≠ [] ∧ pat.isPrefixOf (c :: cs) then
      repl ++ replaceCharsAux pat repl fuel ((c :: cs).drop pat.length)
    else c :: replaceCharsAux pat repl fuel cs

/-- Non-overlapping occurrence replacement on strings
(`strings.Replace(s, pat, repl, -1)`). -/
def stringReplace (s pat repl : String) : String :=
  String.mk (replaceCharsAux pat.data repl.data s.data.length s.data)

/-- Modelled from the spec: `util.Replace` (pkg/util, not under src/)
substitutes the given values into the configurable template string at the
placeholders `\x7b$src\x7d` and `\x7b$srcB64\x7d` (§4.4); the two placeholder
strings do not overlap, so the substitutions are independent. -/
def replacePlaceholders (src srcB64 template : String) : String :=
  stringReplace (stringReplace template "\x7b$src\x7d" src) "\x7b$srcB64\x7d" srcB64

/-- Model of `serializer.Response.Data` of a preview: either a redirect instruction or
a proxied content stream (streams are abstract handles). -/
structure PreviewResp where
  redirect : Bool
  url : String
  maxAge : Nat
  content : Nat
  deriving Repr, DecidableEq

/-- Modelled from the spec: `fs.Preview` (pkg/filesystem, not under src/).
"Text-designated previews force no-cache semantics and are always proxied
(never redirected)" (§4.5): when `isText` is set, a successful preview result
never requests redirection; otherwise the storage policy's decision
(environment-supplied) stands. -/
def fsPreview (raw : Except String PreviewResp) (isText : Bool) :
    Except String PreviewResp :=
  match raw with
  | .error e => .error e
  | .ok r => .ok (if isText then { r with redirect := false } else r)

/-- Modelled from the spec: `filesystem.HookUpdateSourceName` (not under
src/) "updates the FileRecord's physical key to the new value regardless of
outcome" (§4.2): it persists the in-memory record's source name onto the
stored record with the same identity, touching no other record. -/
def hookUpdateSourceName (file : FileRec) (db : List FileRec) : List FileRec :=
  db.map (fun r => if r.id = file.id then { r with sourceName := file.sourceName } else r)

/-- Modelled from the spec: `fs.Upload` (pkg/filesystem, not under src/)
honors the `fsctx.DisableOverwrite` context flag: when the flag is set, an
upload whose destination already holds an object fails instead of replacing
it; when unset, the destination object is replaced. The store is an
association list from (virtual path, name) to stored content. -/
def uploadStep (disableOverwrite : Bool) (stream : FileStream)
    (store : List ((String × String) × String)) :
    Except String (List ((String × String) × String)) :=
  let key := (stream.virtualPath, stream.name)
  if (store.lookup key).isSome then
    if disableOverwrite then .error "file exists"
    else .ok (store.map (fun kv => if kv.1 = key then (key, stream.content) else kv))
  else .ok ((key, stream.content) :: store)

/-! ### `SingleFileService.Create` -/

/-- Environment of one `Create` call: outcome of the external calls. -/
structure CreateEnv where
  fsOk : Bool
  fsErr : String
  uploadErr : Option String
  deriving Repr, DecidableEq

/-- Observable outcome of one `Create` call. -/
structure CreateOut where
  resp : Response
  hooks : List (Stage × Hook)
  uploaded : Option FileStream
  disableOverwrite : Bool
  deriving Repr, DecidableEq

/-- Model of `SingleFileService.Create`: build a filesystem, set
`fsctx.DisableOverwrite` on the upload context, register the validate-file
and generic after-upload hooks, and upload an empty stream named after the
base of `Path` into its directory. -/
def Create (p : String) (env : CreateEnv) : CreateOut :=
  if env.fsOk then
    let hooks := [(Stage.beforeUpload, Hook.validateFile),
                  (Stage.afterUpload, Hook.genericAfterUpload)]
    let stream : FileStream :=
      { size := 0, content := "", virtualPath := pathDir p,
        name := pathBase p, mimeType := "" }
    match env.uploadErr with
    | some e =>
      { resp := errResp CodeUploadFailed e (some e), hooks := hooks,
        uploaded := some stream, disableOverwrite := true }
    | none =>
      { resp := okResp, hooks := hooks,
        uploaded := some stream, disableOverwrite := true }
  else
    { resp := errResp CodePolicyNotAllowed env.fsErr (some env.fsErr),
      hooks := [], uploaded := none, disableOverwrite := false }

/-! ### Content-delivery handlers -/

/-- Observable outcome of a delivery handler: the response, the cache
deletions issued (namespace prefix × id), the response headers set, the
stream handle served, the stream handles closed, and whether a deferred call
faulted (nil-stream `Close` in a `defer` registered before the error check). -/
structure DeliverOut where
  resp : Response
  deletes : List (String × String)
  headers : List (String × String)
  served : Option Nat
  closed : List Nat
  panicked : Bool
  deriving Repr, DecidableEq

/-- A delivery outcome that is only a response: no effect happened. -/
def bareOut (r : Response) : DeliverOut :=
  { resp := r, deletes := [], headers := [], served := none,
    closed := [], panicked := false }

/-- Environment of one `DownloadService.DownloadArchived` call. -/
structure ArchivedEnv where
  fsOk : Bool
  fsErr : String
  archiveEntry : Option String
  physContent : Except String Nat
  oneTimeDownload : Bool
  deriving Repr

/-- Model of `DownloadService.DownloadArchived`: look up the staged archive under
`"archive_" ++ id`, open its physical content (`defer rs.Close()` is
registered *before* the error check, so an error leaves a nil stream whose
deferred close faults), delete the entry when the group has
`OneTimeDownload`, and serve the bytes as an attachment. -/
def DownloadArchived (id : String) (env : ArchivedEnv) : DeliverOut :=
  if env.fsOk then
    match env.archiveEntry with
    | none => bareOut (errResp 404 "归档文件不存在" none)
    | some _zipPath =>
      match env.physContent with
      | .error e =>
        { resp := errResp CodeNotSet e (some e), deletes := [], headers := [],
          served := none, closed := [], panicked := true }
      | .ok rs =>
        { resp := okResp,
          deletes := if env.oneTimeDownload then [("archive_", id)] else [],
          headers := [("Content-Disposition", "attachment;"),
                      ("Content-Type", "application/zip")],
          served := some rs, closed := [rs], panicked := false }
  else bareOut (errResp CodePolicyNotAllowed env.fsErr (some env.fsErr))

/-- Environment of one `FileAnonymousGetService` call. -/
structure AnonymousEnv where
  fsOk : Bool
  fsErr : String
  setTargetErr : Option String
  downloadContent : Except String Nat
  signURL : Except String String
  targetName : String
  deriving Repr

/-- Model of `FileAnonymousGetService.Download`: resolve the target by id, open its
download content (`defer rs.Close()` again registered *before* the error
check), and serve it under the requested name. -/
def AnonymousDownload (env : AnonymousEnv) : DeliverOut :=
  if env.fsOk then
    match env.setTargetErr with
    | some e => bareOut (errResp CodeNotSet e (some e))
    | none =>
      match env.downloadContent with
      | .error e =>
        { resp := errResp CodeNotSet e (some e), deletes := [], headers := [],
          served := none, closed := [], panicked := true }
      | .ok rs =>
        { resp := okResp, deletes := [], headers := [],
          served := some rs, closed := [rs], panicked := false }
  else bareOut (errResp CodeGroupNotAllowed env.fsErr (some env.fsErr))

/-- Model of `FileAnonymousGetService.Source`: resolve the target by id and return a
`-302` redirect to a signed URL for it. -/
def AnonymousSource (env : AnonymousEnv) : Response :=
  if env.fsOk then
    match env.setTargetErr with
    | some e => errResp CodeNotSet e (some e)
    | none =>
      match env.signURL with
      | .error e => errResp CodeNotSet e (some e)
      | .ok res => { code := -302, data := some res, msg := "", error := none }
  else errResp CodeGroupNotAllowed env.fsErr (some env.fsErr)

/-- Environment of one `DownloadService.Download` call. -/
structure DownloadEnv where
  fsOk : Bool
  fsErr : String
  entry : Option FileRec
  downloadContent : Except String Nat
  oneTimeDownload : Bool
  deriving Repr

/-- Model of `DownloadService.Download`: look up the staged download target under
`"download_" ++ id`, open its content (here `defer rs.Close()` comes *after*
the error check), set the attachment header, delete the entry when the group
has `OneTimeDownload`, and serve. -/
def Download (id : String) (env : DownloadEnv) : DeliverOut :=
  if env.fsOk then
    match env.entry with
    | none => bareOut (errResp 404 "文件下载会话不存在" none)
    | some file =>
      match env.downloadContent with
      | .error e => bareOut (errResp CodeNotSet e (some e))
      | .ok rs =>
        { resp := okResp,
          deletes := if env.oneTimeDownload then [("download_", id)] else [],
          headers := [("Content-Disposition",
            "attachment; filename=\"" ++ pathEscape file.name ++ "\"")],
          served := some rs, closed := [rs], panicked := false }
  else bareOut (errResp CodePolicyNotAllowed env.fsErr (some env.fsErr))

/-! ### `FileIDService.CreateDocPreviewSession` and `PreviewContent` -/

/-- Environment of one `FileIDService` preview call. `folderCtx` models the
optional `fsctx.FolderModelCtx` override: `some (some e)` means a folder is
present and `ResetFileIfNotExist` fails with `e`; `some none` means it
succeeds; `none` means no folder override. -/
structure PreviewEnv where
  fsOk : Bool
  fsErr : String
  folderCtx : Option (Option String)
  downloadURL : Except String String
  template : String
  rawPreview : Except String PreviewResp
  deriving Repr

/-- Model of `FileIDService.CreateDocPreviewSession`: obtain a temporary download URL
for the target, base64-encode it, percent-encode both the raw URL and the
base64 form, and substitute them into the `office_preview_service` template
at `\x7b$src\x7d` / `\x7b$srcB64\x7d`. -/
def CreateDocPreviewSession (env : PreviewEnv) : Response :=
  if env.fsOk then
    match env.folderCtx with
    | some (some e) => errResp CodeNotFound e (some e)
    | _ =>
      match env.downloadURL with
      | .error e => errResp CodeNotSet e (some e)
      | .ok downloadURL =>
        let srcB64 := base64String downloadURL
        let srcEncoded := queryEscape downloadURL
        let srcB64Encoded := queryEscape srcB64
        okData (replacePlaceholders srcEncoded srcB64Encoded env.template)
  else errResp CodePolicyNotAllowed env.fsErr (some env.fsErr)

/-- Model of `FileIDService.PreviewContent`: fetch the preview result from the
filesystem; a redirecting result becomes a `-301` response carrying a
`max-age` caching directive, otherwise the content stream is served (with
`Cache-Control: no-cache` when the preview was text-designated). -/
def PreviewContent (env : PreviewEnv) (isText : Bool) : DeliverOut :=
  if env.fsOk then
    match env.folderCtx with
    | some (some e) => bareOut (errResp CodeNotFound e (some e))
    | _ =>
      match fsPreview env.rawPreview isText with
      | .error e => bareOut (errResp CodeNotSet e (some e))
      | .ok resp =>
        if resp.redirect then
          { resp := { code := -301, data := some resp.url, msg := "", error := none },
            deletes := [],
            headers := [("Cache-Control", "max-age=" ++ toString resp.maxAge)],
            served := none, closed := [], panicked := false }
        else
          { resp := okResp, deletes := [],
            headers := if isText then [("Cache-Control", "no-cache")] else [],
            served := some resp.content, closed := [resp.content],
            panicked := false }
  else bareOut (errResp CodePolicyNotAllowed env.fsErr (some env.fsErr))

/-! ### `FileIDService.PutContent` -/

/-- Environment of one `PutContent` call: the `Content-Length` and
`Content-Type` headers, the request body, and the outcome of each external
call (`NewFileSystemFromContext`, `GetFilesByIDs`,
`RemoveFilesWithSoftLinks`, `GenerateSavePath`, `Upload`). -/
structure PutEnv where
  contentLength : String
  contentType : String
  body : String
  fsOk : Bool
  fsErr : String
  files : List FileRec
  softLink : Except String (List FileRec)
  savePath : String
  uploadErr : Option String
  deriving Repr

/-- Observable outcome of one `PutContent` call. -/
structure PutOut where
  resp : Response
  fsAttempted : Bool
  getFilesCalled : Bool
  hooks : List (Stage × Hook)
  uploadedModel : Option FileRec
  uploadedStream : Option FileStream
  uploadCalled : Bool
  deriving Repr, DecidableEq

/-- The hook set `PutContent` registers unconditionally (lines 408–417), in
registration order. -/
def putContentBaseHooks : List (Stage × Hook) :=
  [(Stage.beforeUpload, Hook.resetPolicy),
   (Stage.beforeUpload, Hook.validateFile),
   (Stage.beforeUpload, Hook.changeCapacity),
   (Stage.afterUploadCanceled, Hook.cleanFileContent),
   (Stage.afterUploadCanceled, Hook.clearFileSize),
   (Stage.afterUploadCanceled, Hook.giveBackCapacity),
   (Stage.afterUpload, Hook.genericAfterUpdate),
   (Stage.afterValidateFailed, Hook.cleanFileContent),
   (Stage.afterValidateFailed, Hook.clearFileSize),
   (Stage.afterValidateFailed, Hook.giveBackCapacity)]

/-- Model of `FileIDService.PutContent`: parse the `Content-Length` header, build the
filesystem, load the target record, run the soft-link membership check
(`RemoveFilesWithSoftLinks` returns the records *not* in a soft-link group;
an empty result with a nil error means the file is shared, in which case a
fresh save path replaces the record's source name and the
update-source-name hook is registered on the three after-stages), register
the standard hook set, and upload the body against the record. -/
def PutContent (env : PutEnv) : PutOut :=
  match parseUint64 env.contentLength with
  | none =>
    { resp := paramErr "无法解析文件尺寸" (some "strconv.ParseUint"),
      fsAttempted := false, getFilesCalled := false, hooks := [],
      uploadedModel := none, uploadedStream := none, uploadCalled := false }
  | some fileSize =>
    let fileData0 : FileStream :=
      { size := fileSize, content := env.body, virtualPath := "",
        name := "", mimeType := env.contentType }
    if env.fsOk then
      match env.files with
      | [] =>
        { resp := errResp 404 "文件不存在" none,
          fsAttempted := true, getFilesCalled := true, hooks := [],
          uploadedModel := none, uploadedStream := none, uploadCalled := false }
      | f :: _ =>
        let fileData := { fileData0 with name := f.name }
        let shared := match env.softLink with
          | .ok [] => true
          | _ => false
        let uploadFile := if shared then { f with sourceName := env.savePath } else f
        let slHooks := if shared then
            [(Stage.afterUpload, Hook.updateSourceName),
             (Stage.afterUploadCanceled, Hook.updateSourceName),
             (Stage.afterValidateFailed, Hook.updateSourceName)]
          else []
        let hooks := slHooks ++ putContentBaseHooks
        match env.uploadErr with
        | some e =>
          { resp := errResp CodeUploadFailed e (some e),
            fsAttempted := true, getFilesCalled := true, hooks := hooks,
            uploadedModel := some uploadFile, uploadedStream := some fileData,
            uploadCalled := true }
        | none =>
          { resp := okResp,
            fsAttempted := true, getFilesCalled := true, hooks := hooks,
            uploadedModel := some uploadFile, uploadedStream := some fileData,
            uploadCalled := true }
    else
      { resp := errResp CodePolicyNotAllowed env.fsErr (some env.fsErr),
        fsAttempted := true, getFilesCalled := false, hooks := [],
        uploadedModel := none, uploadedStream := none, uploadCalled := false }

/-! ### Escaping lemmas: `queryEscape` output never leaks reserved characters -/

/-- The characters `queryEscape` may emit: unreserved characters, the hex
escape apparatus, and `+` (for space). -/
def safeQueryChar (c : Char) : Bool :=
  c.isAlphanum || c == '-' || c == '.' || c == '_' || c == '~' || c == '+' || c == '%'

set_option maxRecDepth 8192 in
theorem safeQueryChar_unreserved :
    ∀ b < 256, isUnreservedByte b = true → safeQueryChar (Char.ofNat b) = true := by
  decide

set_option maxRecDepth 8192 in
theorem unreserved_ne_plus :
    ∀ b < 256, isUnreservedByte b = true → Char.ofNat b ≠ '+' := by
  decide

theorem safeQueryChar_hexDigit : ∀ n < 16, safeQueryChar (hexDigit n) = true := by
  decide

theorem hexDigit_ne_plus : ∀ n < 16, hexDigit n ≠ '+' := by
  decide

theorem queryEscapeBytes_safe (bs : List Nat) (hb : ∀ b ∈ bs, b < 256) :
    ∀ c ∈ queryEscapeBytes bs, safeQueryChar c = true := by
  induction bs with
  | nil => intro c hc; simp [queryEscapeBytes] at hc
  | cons b bs ih =>
    intro c hc
    have hb0 : b < 256 := hb b (List.mem_cons_self b bs)
    have hbs : ∀ x ∈ bs, x < 256 := fun x hx => hb x (List.mem_cons_of_mem b hx)
    simp only [queryEscapeBytes] at hc
    by_cases h1 : isUnreservedByte b = true
    · rw [if_pos h1] at hc
      rcases List.mem_cons.mp hc with h | h
      · exact h ▸ safeQueryChar_unreserved b hb0 h1
      · exact ih hbs c h
    · rw [if_neg h1] at hc
      by_cases h2 : (b == 32) = true
      · rw [if_pos h2] at hc
        rcases List.mem_cons.mp hc with h | h
        · subst h; decide
        · exact ih hbs c h
      · rw [if_neg h2] at hc
        rcases List.mem_cons.mp hc with h | h
        · subst h; decide
        · rcases List.mem_cons.mp h with h' | h'
          · exact h' ▸ safeQueryChar_hexDigit _ (Nat.div_lt_of_lt_mul (by omega))
          · rcases List.mem_cons.mp h' with h'' | h''
            · exact h'' ▸ safeQueryChar_hexDigit _ (Nat.mod_lt b (by omega))
            · exact ih hbs c h''

theorem plus_not_mem_queryEscapeBytes (bs : List Nat) (hb : ∀ b ∈ bs, b < 256)
    (h32 : ∀ b ∈ bs, b ≠ 32) : '+' ∉ queryEscapeBytes bs := by
  induction bs with
  | nil => simp [queryEscapeBytes]
  | cons b bs ih =>
    intro hc
    have hb0 : b < 256 := hb b (List.mem_cons_self b bs)
    have hbs : ∀ x ∈ bs, x < 256 := fun x hx => hb x (List.mem_cons_of_mem b hx)
    have h32s : ∀ x ∈ bs, x ≠ 32 := fun x hx => h32 x (List.mem_cons_of_mem b hx)
    simp only [queryEscapeBytes] at hc
    by_cases h1 : isUnreservedByte b = true
    · rw [if_pos h1] at hc
      rcases List.mem_cons.mp hc with h | h
      · exact unreserved_ne_plus b hb0 h1 h.symm
      · exact ih hbs h32s h
    · rw [if_neg h1] at hc
      by_cases h2 : (b == 32) = true
      · exact h32 b (List.mem_cons_self b bs) (by simpa using h2)
      · rw [if_neg h2] at hc
        rcases List.mem_cons.mp hc with h | h
        · exact absurd h.symm (by decide)
        · rcases List.mem_cons.mp h with h' | h'
          · exact hexDigit_ne_plus _ (Nat.div_lt_of_lt_mul (by omega)) h'.symm
          · rcases List.mem_cons.mp h' with h'' | h''
            · exact hexDigit_ne_plus _ (Nat.mod_lt b (by omega)) h''.symm
            · exact ih hbs h32s h''

theorem char_toNat_lt (c : Char) : c.toNat < 1114112 := by
  have h := c.valid
  simp only [UInt32.isValidChar, Nat.isValidChar] at h
  rcases h with h | ⟨h1, h2⟩ <;> simp only [Char.toNat] <;> omega

theorem utf8EncodeChar_lt (n : Nat) (hn : n < 1114112) :
    ∀ b ∈ utf8EncodeChar n, b < 256 := by
  unfold utf8EncodeChar
  by_cases h1 : n < 0x80
  · simp only [if_pos h1]
    intro b hb
    simp only [List.mem_singleton] at hb
    omega
  · by_cases h2 : n < 0x800
    · simp only [if_neg h1, if_pos h2]
      intro b hb
      simp only [List.mem_cons, List.mem_singleton, List.not_mem_nil, or_false] at hb
      rcases hb with h | h <;> omega
    · by_cases h3 : n < 0x10000
      · simp only [if_neg h1, if_neg h2, if_pos h3]
        intro b hb
        simp only [List.mem_cons, List.mem_singleton, List.not_mem_nil, or_false] at hb
        rcases hb with h | h | h <;> omega
      · simp only [if_neg h1, if_neg h2, if_neg h3]
        intro b hb
        simp only [List.mem_cons, List.mem_singleton, List.not_mem_nil, or_false] at hb
        rcases hb with h | h | h | h <;> omega

theorem utf8Bytes_lt (s : String) : ∀ b ∈ utf8Bytes s, b < 256 := by
  intro b hb
  simp only [utf8Bytes, List.mem_flatten, List.mem_map] at hb
  obtain ⟨l, ⟨c, _, rfl⟩, hbl⟩ := hb
  exact utf8EncodeChar_lt c.toNat (char_toNat_lt c) b hbl

theorem utf8EncodeChar_ne32 (n : Nat) (hn : n ≠ 32) :
    ∀ b ∈ utf8EncodeChar n, b ≠ 32 := by
  unfold utf8EncodeChar
  by_cases h1 : n < 0x80
  · simp only [if_pos h1]
    intro b hb
    simp only [List.mem_singleton] at hb
    omega
  · by_cases h2 : n < 0x800
    · simp only [if_neg h1, if_pos h2]
      intro b hb
      simp only [List.mem_cons, List.mem_singleton, List.not_mem_nil, or_false] at hb
      rcases hb with h | h <;> omega
    · by_cases h3 : n < 0x10000
      · simp only [if_neg h1, if_neg h2, if_pos h3]
        intro b hb
        simp only [List.mem_cons, List.mem_singleton, List.not_mem_nil, or_false] at hb
        rcases hb with h | h | h <;> omega
      · simp only [if_neg h1, if_neg h2, if_neg h3]
        intro b hb
        simp only [List.mem_cons, List.mem_singleton, List.not_mem_nil, or_false] at hb
        rcases hb with h | h | h | h <;> omega

theorem utf8Bytes_ne32 (s : String) (h : ∀ c ∈ s.data, c ≠ ' ') :
    ∀ b ∈ utf8Bytes s, b ≠ 32 := by
  intro b hb
  simp only [utf8Bytes, List.mem_flatten, List.mem_map] at hb
  obtain ⟨l, ⟨c, hcs, rfl⟩, hbl⟩ := hb
  have hc32 : c.toNat ≠ 32 := by
    intro he
    exact h c hcs (Char.ext (UInt32.ext he))
  exact utf8EncodeChar_ne32 c.toNat hc32 b hbl

theorem b64Char_ne_space : ∀ n < 64, b64Char n ≠ ' ' := by
  decide

theorem base64EncodeBytes_no_space :
    ∀ bs : List Nat, (∀ b ∈ bs, b < 256) → ∀ c ∈ base64EncodeBytes bs, c ≠ ' '
  | [], _, c, hc => by simp [base64EncodeBytes] at hc
  | [a], hb, c, hc => by
    have ha : a < 256 := hb a (by simp)
    simp only [base64EncodeBytes, List.mem_cons, List.mem_singleton] at hc
    rcases hc with h | h | h | h
    · exact h ▸ b64Char_ne_space _ (by omega)
    · exact h ▸ b64Char_ne_space _ (by omega)
    · subst h; decide
    · rcases h with h | h
      · subst h; decide
      · exact absurd h (List.not_mem_nil c)
  | [a, b], hb, c, hc => by
    have ha : a < 256 := hb a (by simp)
    have hb' : b < 256 := hb b (by simp)
    simp only [base64EncodeBytes, List.mem_cons, List.mem_singleton] at hc
    rcases hc with h | h | h | h
    · exact h ▸ b64Char_ne_space _ (by omega)
    · exact h ▸ b64Char_ne_space _ (by omega)
    · exact h ▸ b64Char_ne_space _ (by omega)
    · rcases h with h | h
      · subst h; decide
      · exact absurd h (List.not_mem_nil c)
  | a :: b :: d :: rest, hb, c, hc => by
    have ha : a < 256 := hb a (by simp)
    have hb' : b < 256 := hb b (by simp)
    have hd : d < 256 := hb d (by simp)
    have hrest : ∀ x ∈ rest, x < 256 := fun x hx => hb x (by simp [hx])
    simp only [base64EncodeBytes, List.mem_cons] at hc
    rcases hc with h | h | h | h | h
    · exact h ▸ b64Char_ne_space _ (by omega)
    · exact h ▸ b64Char_ne_space _ (by omega)
    · exact h ▸ b64Char_ne_space _ (by omega)
    · exact h ▸ b64Char_ne_space _ (by omega)
    · exact base64EncodeBytes_no_space rest hrest c h

theorem safeQueryChar_excludes (c : Char) (h : safeQueryChar c = true) :
    c ≠ '&' ∧ c ≠ '=' ∧ c ≠ '?' ∧ c ≠ ' ' ∧ c ≠ '/' := by
  refine ⟨?_, ?_, ?_, ?_, ?_⟩ <;> rintro rfl <;> revert h <;> decide

/-! ### Helper lemmas about the spec-modelled update-source-name hook -/

theorem hookUpdateSourceName_spec (file : FileRec) (db : List FileRec)
    (r : FileRec) (hr : r ∈ db) :
    (r.id = file.id →
      ({ r with sourceName := file.sourceName } : FileRec) ∈ hookUpdateSourceName file db) ∧
    (r.id ≠ file.id → r ∈ hookUpdateSourceName file db) := by
  constructor
  · intro h
    have hm := List.mem_map_of_mem
      (fun x : FileRec => if x.id = file.id then { x with sourceName := file.sourceName } else x) hr
    simpa [hookUpdateSourceName, h] using hm
  · intro h
    have hm := List.mem_map_of_mem
      (fun x : FileRec => if x.id = file.id then { x with sourceName := file.sourceName } else x) hr
    simpa [hookUpdateSourceName, h] using hm

/-! ### Claim theorems -/

/-- Claim C9: a `PutContent` request whose `Content-Length` header is
missing or not a parseable unsigned 64-bit integer returns a parameter error
before the filesystem is created, before the target file is looked up, and
before any hook is registered or any upload attempted — no state is touched. -/
theorem putContent_bad_content_length (env : PutEnv)
    (h : parseUint64 env.contentLength = none) :
    (PutContent env).resp.code = CodeParamErr ∧
    (PutContent env).fsAttempted = false ∧
    (PutContent env).getFilesCalled = false ∧
    (PutContent env).hooks = [] ∧
    (PutContent env).uploadCalled = false ∧
    (PutContent env).uploadedModel = none ∧
    (PutContent env).uploadedStream = none := by
  simp [PutContent, h, paramErr, errResp]

/-- Witness for C9: a request whose `Content-Length` is not numeric. -/
def putContentEnvC9 : PutEnv :=
  { contentLength := "abc", contentType := "text/plain", body := "x",
    fsOk := true, fsErr := "", files := [], softLink := Except.ok [],
    savePath := "", uploadErr := none }

theorem putContent_bad_content_length_witness :
    (PutContent putContentEnvC9).resp.code = CodeParamErr ∧
    (PutContent putContentEnvC9).fsAttempted = false ∧
    (PutContent putContentEnvC9).getFilesCalled = false ∧
    (PutContent putContentEnvC9).hooks = [] ∧
    (PutContent putContentEnvC9).uploadCalled = false ∧
    (PutContent putContentEnvC9).uploadedModel = none ∧
    (PutContent putContentEnvC9).uploadedStream = none :=
  putContent_bad_content_length putContentEnvC9 rfl

/-- Claim C8: when `RemoveFilesWithSoftLinks` itself returns an error,
`PutContent` silently discards it and proceeds as an in-place, non-shared
overwrite: the record keeps its original physical key, no update-source-name
hook is registered on any stage, and the upload is still invoked. -/
theorem putContent_softlink_check_error (env : PutEnv) (n : Nat) (f : FileRec)
    (rest : List FileRec) (e : String)
    (h1 : parseUint64 env.contentLength = some n)
    (h2 : env.fsOk = true)
    (h3 : env.files = f :: rest)
    (h4 : env.softLink = Except.error e) :
    (PutContent env).uploadedModel = some f ∧
    (PutContent env).uploadCalled = true ∧
    (∀ st, (st, Hook.updateSourceName) ∉ (PutContent env).hooks) ∧
    (env.uploadErr = none → (PutContent env).resp = okResp) := by
  cases hup : env.uploadErr with
  | none =>
    refine ⟨?_, ?_, ?_, ?_⟩ <;>
      simp [PutContent, h1, h2, h3, h4, hup, putContentBaseHooks]
  | some e' =>
    refine ⟨?_, ?_, ?_, ?_⟩ <;>
      simp [PutContent, h1, h2, h3, h4, hup, putContentBaseHooks]

/-- Witness for C8: the soft-link check fails, the upload proceeds in place. -/
def putContentEnvC8 : PutEnv :=
  { contentLength := "5", contentType := "text/plain", body := "hello",
    fsOk := true, fsErr := "",
    files := [{ id := 42, name := "report.txt", sourceName := "store/k1" }],
    softLink := Except.error "db timeout", savePath := "store/k2",
    uploadErr := none }

theorem putContent_softlink_check_error_witness :
    (PutContent putContentEnvC8).uploadedModel =
      some { id := 42, name := "report.txt", sourceName := "store/k1" } ∧
    (PutContent putContentEnvC8).uploadCalled = true ∧
    (∀ st, (st, Hook.updateSourceName) ∉ (PutContent putContentEnvC8).hooks) ∧
    (putContentEnvC8.uploadErr = none → (PutContent putContentEnvC8).resp = okResp) :=
  putContent_softlink_check_error putContentEnvC8 5
    { id := 42, name := "report.txt", sourceName := "store/k1" } [] "db timeout"
    rfl rfl rfl rfl

/-- Claim C1: when the soft-link check reports the overwritten record's
physical key as shared (`RemoveFilesWithSoftLinks` succeeds with an empty
result), `PutContent` computes a fresh physical key before invoking the
upload (the record handed to the upload carries the `GenerateSavePath`
result) and registers the update-source-name hook on `AfterUpload`,
`AfterUploadCanceled` and `AfterValidateFailed`; after success the record
carries the new key while every other record (and hence the originally
shared physical object) is unchanged. When the key is not shared, no new
key is computed and the update proceeds in place with no such hook. -/
theorem putContent_softlink_overwrite (env : PutEnv) (n : Nat) (f : FileRec)
    (rest : List FileRec)
    (h1 : parseUint64 env.contentLength = some n)
    (h2 : env.fsOk = true)
    (h3 : env.files = f :: rest)
    (h4 : env.uploadErr = none) :
    (env.softLink = Except.ok [] →
      (PutContent env).resp = okResp ∧
      (PutContent env).uploadedModel = some { f with sourceName := env.savePath } ∧
      (Stage.afterUpload, Hook.updateSourceName) ∈ (PutContent env).hooks ∧
      (Stage.afterUploadCanceled, Hook.updateSourceName) ∈ (PutContent env).hooks ∧
      (Stage.afterValidateFailed, Hook.updateSourceName) ∈ (PutContent env).hooks ∧
      (∀ db : List FileRec, ∀ r ∈ db,
        (r.id = f.id →
          ({ r with sourceName := env.savePath } : FileRec) ∈
            hookUpdateSourceName { f with sourceName := env.savePath } db) ∧
        (r.id ≠ f.id →
          r ∈ hookUpdateSourceName { f with sourceName := env.savePath } db))) ∧
    (∀ g gs, env.softLink = Except.ok (g :: gs) →
      (PutContent env).uploadedModel = some f ∧
      ∀ st, (st, Hook.updateSourceName) ∉ (PutContent env).hooks) := by
  constructor
  · intro h5
    refine ⟨?_, ?_, ?_, ?_, ?_, ?_⟩
    · simp [PutContent, h1, h2, h3, h4, h5]
    · simp [PutContent, h1, h2, h3, h4, h5]
    · simp [PutContent, h1, h2, h3, h4, h5, putContentBaseHooks]
    · simp [PutContent, h1, h2, h3, h4, h5, putContentBaseHooks]
    · simp [PutContent, h1, h2, h3, h4, h5, putContentBaseHooks]
    · intro db r hr
      exact hookUpdateSourceName_spec { f with sourceName := env.savePath } db r hr
  · intro g gs h5
    constructor
    · simp [PutContent, h1, h2, h3, h4, h5]
    · intro st
      simp [PutContent, h1, h2, h3, h4, h5, putContentBaseHooks]

/-- Witness for C1: file 42 shares its key `store/k1` with file 43; after the
overwrite, 42 points at the fresh key and 43 is untouched. -/
def putContentEnvC1 : PutEnv :=
  { contentLength := "5", contentType := "text/plain", body := "hello",
    fsOk := true, fsErr := "",
    files := [{ id := 42, name := "report.txt", sourceName := "store/k1" }],
    softLink := Except.ok [], savePath := "store/k2", uploadErr := none }

theorem putContent_softlink_overwrite_witness :
    (PutContent putContentEnvC1).resp = okResp ∧
    (PutContent putContentEnvC1).uploadedModel =
      some { id := 42, name := "report.txt", sourceName := "store/k2" } ∧
    (Stage.afterUpload, Hook.updateSourceName) ∈ (PutContent putContentEnvC1).hooks ∧
    ({ id := 42, name := "report.txt", sourceName := "store/k2" } : FileRec) ∈
      hookUpdateSourceName { id := 42, name := "report.txt", sourceName := "store/k2" }
        [{ id := 42, name := "report.txt", sourceName := "store/k1" },
         { id := 43, name := "copy.txt", sourceName := "store/k1" }] ∧
    ({ id := 43, name := "copy.txt", sourceName := "store/k1" } : FileRec) ∈
      hookUpdateSourceName { id := 42, name := "report.txt", sourceName := "store/k2" }
        [{ id := 42, name := "report.txt", sourceName := "store/k1" },
         { id := 43, name := "copy.txt", sourceName := "store/k1" }] := by
  have h := (putContent_softlink_overwrite putContentEnvC1 5
    { id := 42, name := "report.txt", sourceName := "store/k1" } []
    rfl rfl rfl rfl).1 rfl
  refine ⟨h.1, h.2.1, h.2.2.1, ?_, ?_⟩
  · exact (h.2.2.2.2.2 _ { id := 42, name := "report.txt", sourceName := "store/k1" }
      (by simp)).1 rfl
  · exact (h.2.2.2.2.2 _ { id := 43, name := "copy.txt", sourceName := "store/k1" }
      (by simp)).2 (by decide)

/-- Claim C7: `Create` always uploads an empty stream of declared size 0,
named after the base component of the path, into its directory component;
when the upload succeeds the response is the bare success code 0, and when
it fails the response is an upload-failed error carrying the cause. -/
theorem create_empty_file (p : String) (env : CreateEnv) (hfs : env.fsOk = true) :
    (env.uploadErr = none →
      (Create p env).resp = okResp ∧
      (Create p env).uploaded = some
        { size := 0, content := "", virtualPath := pathDir p,
          name := pathBase p, mimeType := "" }) ∧
    (∀ e, env.uploadErr = some e →
      (Create p env).resp = errResp CodeUploadFailed e (some e)) := by
  constructor
  · intro hup; constructor <;> simp [Create, hfs, hup]
  · intro e hup; simp [Create, hfs, hup]

/-- Witness for C7: creating `/docs/a.txt` succeeds with a zero-length
object named `a.txt` in `/docs`. -/
def createEnvC7 : CreateEnv := { fsOk := true, fsErr := "", uploadErr := none }

theorem create_empty_file_witness :
    (Create "/docs/a.txt" createEnvC7).resp = okResp ∧
    (Create "/docs/a.txt" createEnvC7).uploaded = some
      { size := 0, content := "", virtualPath := "/docs",
        name := "a.txt", mimeType := "" } := by
  have h := (create_empty_file "/docs/a.txt" createEnvC7 rfl).1 rfl
  exact ⟨h.1, h.2.trans (by rfl)⟩

/-- Claim C10: `Create` uploads under a context with `DisableOverwrite` set,
registers exactly the validate-file hook on `BeforeUpload` and the generic
after-upload hook on `AfterUpload`, and consequently (with the upload
primitive honoring the flag) never replaces the content of an existing file
at the target path. -/
theorem create_disable_overwrite (p : String) (env : CreateEnv)
    (hfs : env.fsOk = true) :
    (Create p env).disableOverwrite = true ∧
    (Create p env).hooks =
      [(Stage.beforeUpload, Hook.validateFile),
       (Stage.afterUpload, Hook.genericAfterUpload)] ∧
    (∀ stream, (Create p env).uploaded = some stream →
      ∀ store : List ((String × String) × String),
        (store.lookup (stream.virtualPath, stream.name)).isSome = true →
        uploadStep (Create p env).disableOverwrite stream store =
          Except.error "file exists") := by
  refine ⟨?_, ?_, ?_⟩
  · cases hup : env.uploadErr <;> simp [Create, hfs, hup]
  · cases hup : env.uploadErr <;> simp [Create, hfs, hup]
  · intro stream _ store hkey
    have hd : (Create p env).disableOverwrite = true := by
      cases hup : env.uploadErr <;> simp [Create, hfs, hup]
    rw [hd]
    simp [uploadStep, hkey]

/-- Witness for C10: the target path already holds an object, so the
overwrite-disabled upload fails instead of replacing it. -/
def createEnvC10 : CreateEnv := { fsOk := true, fsErr := "", uploadErr := none }

theorem create_disable_overwrite_witness :
    (Create "/docs/a.txt" createEnvC10).disableOverwrite = true ∧
    (Create "/docs/a.txt" createEnvC10).hooks =
      [(Stage.beforeUpload, Hook.validateFile),
       (Stage.afterUpload, Hook.genericAfterUpload)] ∧
    uploadStep (Create "/docs/a.txt" createEnvC10).disableOverwrite
      { size := 0, content := "", virtualPath := "/docs",
        name := "a.txt", mimeType := "" }
      [(("/docs", "a.txt"), "old content")] = Except.error "file exists" := by
  have h := create_disable_overwrite "/docs/a.txt" createEnvC10 rfl
  exact ⟨h.1, h.2.1, h.2.2 _ rfl [(("/docs", "a.txt"), "old content")] rfl⟩

/-- Counterexample input for C3: the session entry is present and the
group has `OneTimeDownload`, but obtaining the content stream fails. -/
def downloadEnvC3 : DownloadEnv :=
  { fsOk := true, fsErr := "",
    entry := some { id := 7, name := "report.pdf", sourceName := "store/k7" },
    downloadContent := Except.error "read failed", oneTimeDownload := true }

/-- Claim C3 counterexample: a successful session-entry retrieval with
`OneTimeDownload` set after which no delete is issued — obtaining the
content stream failed, and the delete only happens after that succeeds, so
"deleted if and only if `OneTimeDownload` is set" fails as stated. -/
theorem download_one_time_counterexample :
    downloadEnvC3.entry.isSome = true ∧
    downloadEnvC3.oneTimeDownload = true ∧
    (Download "tok" downloadEnvC3).deletes = [] :=
  ⟨rfl, rfl, rfl⟩

/-- Claim C3 (amended): after a successful session-entry retrieval in
`Download` (prefix `download_`) or `DownloadArchived` (prefix `archive_`)
*followed by successful content-stream acquisition*, the entry is explicitly
deleted iff the requesting user's group has `OneTimeDownload`; when
acquiring the stream fails, the entry is left in the store even if the
option is set. -/
theorem download_one_time_delete (id : String) (env : DownloadEnv)
    (envA : ArchivedEnv) (f : FileRec) (zp : String)
    (h1 : env.fsOk = true) (h2 : env.entry = some f)
    (h3 : envA.fsOk = true) (h4 : envA.archiveEntry = some zp) :
    (∀ rs, env.downloadContent = Except.ok rs →
      ((Download id env).deletes = [("download_", id)] ↔
        env.oneTimeDownload = true)) ∧
    (∀ e, env.downloadContent = Except.error e →
      (Download id env).deletes = []) ∧
    (∀ rs, envA.physContent = Except.ok rs →
      ((DownloadArchived id envA).deletes = [("archive_", id)] ↔
        envA.oneTimeDownload = true)) ∧
    (∀ e, envA.physContent = Except.error e →
      (DownloadArchived id envA).deletes = []) := by
  refine ⟨?_, ?_, ?_, ?_⟩
  · intro rs h5
    cases ho : env.oneTimeDownload <;> simp [Download, h1, h2, h5, ho]
  · intro e h5; simp [Download, h1, h2, h5, bareOut]
  · intro rs h5
    cases ho : envA.oneTimeDownload <;> simp [DownloadArchived, h3, h4, h5, ho]
  · intro e h5; simp [DownloadArchived, h3, h4, h5, bareOut]

/-- Witness inputs for the amended C3. -/
def downloadEnvC3w : DownloadEnv :=
  { fsOk := true, fsErr := "",
    entry := some { id := 7, name := "report.pdf", sourceName := "store/k7" },
    downloadContent := Except.ok 3, oneTimeDownload := true }

/-- Witness inputs for the amended C3, archive side. -/
def archivedEnvC3w : ArchivedEnv :=
  { fsOk := true, fsErr := "", archiveEntry := some "/tmp/a.zip",
    physContent := Except.ok 4, oneTimeDownload := false }

theorem download_one_time_delete_witness :
    ((Download "tok" downloadEnvC3w).deletes = [("download_", "tok")] ↔
      downloadEnvC3w.oneTimeDownload = true) ∧
    ((DownloadArchived "tok" archivedEnvC3w).deletes = [("archive_", "tok")] ↔
      archivedEnvC3w.oneTimeDownload = true) := by
  have h := download_one_time_delete "tok" downloadEnvC3w archivedEnvC3w
    { id := 7, name := "report.pdf", sourceName := "store/k7" } "/tmp/a.zip"
    rfl rfl rfl rfl
  exact ⟨h.1 3 rfl, h.2.2.1 4 rfl⟩

/-- Claim C4: when the target of an anonymous or session-token download
cannot be resolved — the session entry is absent in `Download` or
`DownloadArchived`, or the file id does not resolve in the anonymous
`Download`/`Source` — the handler returns a not-found/not-set error with no
data (no stale URL, nothing served), and no state is mutated (no cache
delete, no header, no panic). -/
theorem failed_lookup_not_found (id : String) (e1 : DownloadEnv)
    (e2 : ArchivedEnv) (e3 : AnonymousEnv) (msg : String)
    (h1 : e1.fsOk = true) (h2 : e1.entry = none)
    (h3 : e2.fsOk = true) (h4 : e2.archiveEntry = none)
    (h5 : e3.fsOk = true) (h6 : e3.setTargetErr = some msg) :
    ((Download id e1).resp.code = 404 ∧ (Download id e1).resp.data = none ∧
      (Download id e1).deletes = [] ∧ (Download id e1).headers = [] ∧
      (Download id e1).served = none ∧ (Download id e1).panicked = false) ∧
    ((DownloadArchived id e2).resp.code = 404 ∧
      (DownloadArchived id e2).resp.data = none ∧
      (DownloadArchived id e2).deletes = [] ∧
      (DownloadArchived id e2).headers = [] ∧
      (DownloadArchived id e2).served = none ∧
      (DownloadArchived id e2).panicked = false) ∧
    ((AnonymousDownload e3).resp.code = CodeNotSet ∧
      (AnonymousDownload e3).resp.data = none ∧
      (AnonymousDownload e3).served = none ∧
      (AnonymousDownload e3).deletes = [] ∧
      (AnonymousDownload e3).closed = [] ∧
      (AnonymousDownload e3).panicked = false) ∧
    ((AnonymousSource e3).code = CodeNotSet ∧
      (AnonymousSource e3).data = none) := by
  refine ⟨?_, ?_, ?_, ?_⟩ <;>
    simp [Download, DownloadArchived, AnonymousDownload, AnonymousSource,
      h1, h2, h3, h4, h5, h6, bareOut, errResp]

/-- Witness inputs for C4: expired/absent session and unresolvable file id. -/
def downloadEnvC4 : DownloadEnv :=
  { fsOk := true, fsErr := "", entry := none,
    downloadContent := Except.ok 1, oneTimeDownload := true }

/-- Witness inputs for C4, archive side. -/
def archivedEnvC4 : ArchivedEnv :=
  { fsOk := true, fsErr := "", archiveEntry := none,
    physContent := Except.ok 1, oneTimeDownload := true }

/-- Witness inputs for C4, anonymous side: file id 7 does not resolve. -/
def anonymousEnvC4 : AnonymousEnv :=
  { fsOk := true, fsErr := "", setTargetErr := some "file with id 7 not found",
    downloadContent := Except.ok 1, signURL := Except.ok "https://stale",
    targetName := "report.pdf" }

theorem failed_lookup_not_found_witness :
    (Download "7" downloadEnvC4).resp.code = 404 ∧
    (Download "7" downloadEnvC4).deletes = [] ∧
    (DownloadArchived "7" archivedEnvC4).resp.code = 404 ∧
    (AnonymousDownload anonymousEnvC4).resp.code = CodeNotSet ∧
    (AnonymousSource anonymousEnvC4).code = CodeNotSet ∧
    (AnonymousSource anonymousEnvC4).data = none := by
  have h := failed_lookup_not_found "7" downloadEnvC4 archivedEnvC4
    anonymousEnvC4 "file with id 7 not found" rfl rfl rfl rfl rfl rfl
  exact ⟨h.1.1, h.1.2.2.1, h.2.1.1, h.2.2.1.1, h.2.2.2.1, h.2.2.2.2⟩

/-- Failing input for C5: the archive entry exists but opening the physical
content fails. -/
def archivedEnvC5 : ArchivedEnv :=
  { fsOk := true, fsErr := "", archiveEntry := some "/tmp/archive_1.zip",
    physContent := Except.error "open failed", oneTimeDownload := false }

/-- Success-path input for C5: the stream opens and is closed normally. -/
def archivedEnvC5ok : ArchivedEnv :=
  { fsOk := true, fsErr := "", archiveEntry := some "/tmp/archive_1.zip",
    physContent := Except.ok 7, oneTimeDownload := false }

/-- Failing input for C5 on the anonymous download path. -/
def anonymousEnvC5 : AnonymousEnv :=
  { fsOk := true, fsErr := "", setTargetErr := none,
    downloadContent := Except.error "open failed", signURL := Except.ok "",
    targetName := "report.pdf" }

/-- Claim C5 evaluated at the failing inputs: in `DownloadArchived` and the
anonymous `Download`, `defer rs.Close()` is registered *before* the error
check of the call that produced `rs`, so on the error path the deferred
close runs against a nil stream and faults (and no stream is closed); on
the success path the stream is closed. The claim that "closing on the error
path never faults" is therefore violated by the code. -/
theorem stream_close_error_path_faults :
    (DownloadArchived "tok" archivedEnvC5).panicked = true ∧
    (DownloadArchived "tok" archivedEnvC5).closed = [] ∧
    (AnonymousDownload anonymousEnvC5).panicked = true ∧
    (AnonymousDownload anonymousEnvC5).closed = [] ∧
    (DownloadArchived "tok" archivedEnvC5ok).closed = [7] ∧
    (DownloadArchived "tok" archivedEnvC5ok).panicked = false :=
  ⟨rfl, rfl, rfl, rfl, rfl, rfl⟩

/-- Claim C6: a text-designated preview is never answered with a redirect
(`-301`/`-302`) — its content is proxied — and a served text preview carries
`Cache-Control: no-cache`; a `-301` redirect carrying a `max-age` directive
arises only for non-text previews whose preview result requested
redirection. -/
theorem previewContent_text_no_redirect (env : PreviewEnv) (b : Bool) :
    ((PreviewContent env true).resp.code ≠ -301 ∧
      (PreviewContent env true).resp.code ≠ -302) ∧
    ((PreviewContent env true).served.isSome = true →
      (PreviewContent env true).headers = [("Cache-Control", "no-cache")]) ∧
    ((PreviewContent env b).resp.code = -301 →
      b = false ∧ ∃ r, env.rawPreview = Except.ok r ∧ r.redirect = true ∧
        (PreviewContent env b).headers =
          [("Cache-Control", "max-age=" ++ toString r.maxAge)]) := by
  obtain ⟨fsOk, fsErr, folderCtx, downloadURL, template, rawPreview⟩ := env
  cases fsOk <;>
    rcases folderCtx with _ | ⟨_ | e⟩ <;>
    rcases rawPreview with e' | r <;>
    cases b <;>
    simp [PreviewContent, fsPreview, bareOut, errResp, okResp,
      CodePolicyNotAllowed, CodeNotFound, CodeNotSet] <;>
    by_cases hr : r.redirect <;>
    simp [hr]

/-- Witness input for C6: the storage policy wants a redirect, but the
caller asked for text. -/
def previewEnvC6 : PreviewEnv :=
  { fsOk := true, fsErr := "", folderCtx := none,
    downloadURL := Except.ok "https://u", template := "",
    rawPreview := Except.ok
      { redirect := true, url := "https://origin/f", maxAge := 3600, content := 5 } }

theorem previewContent_text_no_redirect_witness :
    ((PreviewContent previewEnvC6 true).resp.code ≠ -301 ∧
      (PreviewContent previewEnvC6 true).resp.code ≠ -302) ∧
    ((PreviewContent previewEnvC6 true).served.isSome = true →
      (PreviewContent previewEnvC6 true).headers =
        [("Cache-Control", "no-cache")]) ∧
    ((PreviewContent previewEnvC6 false).resp.code = -301 →
      false = false ∧ ∃ r, previewEnvC6.rawPreview = Except.ok r ∧
        r.redirect = true ∧
        (PreviewContent previewEnvC6 false).headers =
          [("Cache-Control", "max-age=" ++ toString r.maxAge)]) := by
  have h1 := previewContent_text_no_redirect previewEnvC6 true
  have h2 := previewContent_text_no_redirect previewEnvC6 false
  exact ⟨h1.1, h1.2.1, h2.2.2⟩

/-- Claim C2: when the download URL is obtained, `CreateDocPreviewSession`
returns the configured template with `\x7b$src\x7d` replaced by the
percent-encoded raw URL and `\x7b$srcB64\x7d` by the percent-encoding of its
base64 form; both substituted strings are free of raw `&`, `=`, `?`, `/`
and spaces (and of `+` unless the URL itself contained a space), so no
unescaped reserved character of the URL leaks into the template's
surrounding literal text. -/
theorem createDocPreviewSession_escaped (env : PreviewEnv) (u : String)
    (h1 : env.fsOk = true)
    (h2 : ∀ e, env.folderCtx ≠ some (some e))
    (h3 : env.downloadURL = Except.ok u) :
    CreateDocPreviewSession env =
      okData (replacePlaceholders (queryEscape u)
        (queryEscape (base64String u)) env.template) ∧
    (∀ c ∈ (queryEscape u).data,
      c ≠ '&' ∧ c ≠ '=' ∧ c ≠ '?' ∧ c ≠ ' ' ∧ c ≠ '/') ∧
    ((∀ c ∈ u.data, c ≠ ' ') → '+' ∉ (queryEscape u).data) ∧
    (∀ c ∈ (queryEscape (base64String u)).data,
      c ≠ '&' ∧ c ≠ '=' ∧ c ≠ '?' ∧ c ≠ ' ' ∧ c ≠ '/') ∧
    '+' ∉ (queryEscape (base64String u)).data := by
  refine ⟨?_, ?_, ?_, ?_, ?_⟩
  · rcases hf : env.folderCtx with _ | ⟨_ | e⟩
    · simp [CreateDocPreviewSession, h1, h3, hf]
    · simp [CreateDocPreviewSession, h1, h3, hf]
    · exact absurd hf (h2 e)
  · intro c hc
    exact safeQueryChar_excludes c
      (queryEscapeBytes_safe (utf8Bytes u) (utf8Bytes_lt u) c hc)
  · intro hsp
    exact plus_not_mem_queryEscapeBytes (utf8Bytes u) (utf8Bytes_lt u)
      (utf8Bytes_ne32 u hsp)
  · intro c hc
    exact safeQueryChar_excludes c
      (queryEscapeBytes_safe (utf8Bytes (base64String u))
        (utf8Bytes_lt (base64String u)) c hc)
  · exact plus_not_mem_queryEscapeBytes (utf8Bytes (base64String u))
      (utf8Bytes_lt (base64String u))
      (utf8Bytes_ne32 (base64String u)
        (base64EncodeBytes_no_space (utf8Bytes u) (utf8Bytes_lt u)))

/-- Witness input for C2: the scenario URL `https://cdn/x?sig=ab+c` with a
small template around both placeholders. -/
def previewEnvC2 : PreviewEnv :=
  { fsOk := true, fsErr := "", folderCtx := none,
    downloadURL := Except.ok "https://cdn/x?sig=ab+c",
    template := "https://viewer/?src=\x7b$src\x7d&b=\x7b$srcB64\x7d",
    rawPreview := Except.error "" }

theorem createDocPreviewSession_escaped_witness :
    CreateDocPreviewSession previewEnvC2 =
      okData ("https://viewer/?src=https%3A%2F%2Fcdn%2Fx%3Fsig%3Dab%2Bc" ++
        "&b=aHR0cHM6Ly9jZG4veD9zaWc9YWIrYw%3D%3D") ∧
    '+' ∉ (queryEscape (base64String "https://cdn/x?sig=ab+c")).data ∧
    '+' ∉ (queryEscape "https://cdn/x?sig=ab+c").data := by
  have h := createDocPreviewSession_escaped previewEnvC2 "https://cdn/x?sig=ab+c"
    rfl (fun e hf => by simp [previewEnvC2] at hf) rfl
  refine ⟨h.1.trans (by decide), h.2.2.2.2, h.2.2.1 (by decide)⟩

end Cloudreve
